import Mathlib

/-!
Verification development for the railtail forwarding engine
(fixed-target HTTP forwarder `fwdHttp` in http.go, the raw TCP byte pump
`fwdTCP` in tcp.go, the host-routed `TailnetProxy` in tailnet_proxy.go,
and the TCP accept loop in main.go).

Shallow embedding: machine strings and byte bodies are Lean `String` /
`List Nat`; the outbound HTTP transport and the overlay-network dialer
are oracles supplied as explicit arguments; the mutable, mutex-guarded
variables of `fwdHttp` are threaded as an explicit `ProxyState`.
-/

/-- URL data model: the fields of `net/url.URL` that the forwarding code
reads or writes (`Scheme`, `Host`, `Path`, `RawQuery`). -/
structure URL where
  scheme : String
  host : String
  path : String
  query : String
deriving DecidableEq, Repr

/-- Go `net/url` rejects any ASCII control byte (below space, or DEL)
anywhere in a URL string. -/
def containsCtl (s : String) : Bool :=
  s.toList.any fun c => c.toNat < 32 || c.toNat == 127

/-- Splits a character list at the first occurrence of "://", returning
the scheme characters before it and the remainder after it. -/
def schemeSplit : List Char → Option (List Char × List Char)
  | ':' :: '/' :: '/' :: rest => some ([], rest)
  | c :: rest => (schemeSplit rest).map fun p => (c :: p.1, p.2)
  | [] => none

/-- Splits the part after the authority at the first '?' into path and
raw query characters. -/
def splitQuery : List Char → List Char × List Char
  | [] => ([], [])
  | '?' :: rest => ([], rest)
  | c :: rest =>
      let p := splitQuery rest
      (c :: p.1, p.2)

/-- Model of `net/url.Parse` on the absolute URLs the forwarder builds:
control characters are rejected exactly as in Go; then the string is
split as scheme://host[path][?query], the host ending at the first '/'
or '?'.  Strings without a "://" are not absolute URLs and are rejected
in this model. -/
def parseURL (s : String) : Except String URL :=
  if containsCtl s then
    Except.error "net/url: invalid control character in URL"
  else
    match schemeSplit s.toList with
    | none => Except.error "missing protocol scheme"
    | some (sch, rest) =>
        if sch.isEmpty then Except.error "missing protocol scheme"
        else
          let host := rest.takeWhile fun c => c != '/' && c != '?'
          let tail := rest.dropWhile fun c => c != '/' && c != '?'
          let pq := splitQuery tail
          Except.ok ⟨String.mk sch, String.mk host, String.mk pq.1, String.mk pq.2⟩

/-- Model of `url.URL.RequestURI`: path (or "/" when empty) followed by
"?" and the raw query when the query is nonempty. -/
def requestURI (u : URL) : String :=
  (if u.path = "" then "/" else u.path) ++ (if u.query = "" then "" else "?" ++ u.query)

/-- Rendering of a parsed absolute URL back to its string form
(`url.URL.String` restricted to the fields modelled here). -/
def urlToString (u : URL) : String :=
  u.scheme ++ "://" ++ u.host ++ u.path ++ (if u.query = "" then "" else "?" ++ u.query)

/-- HTTP headers as an ordered list of (canonical key, value) pairs,
matching the iteration the forwarder performs on `http.Header`. -/
abbrev Header : Type := List (String × String)

/-- Model of `*http.Request`: the URL, the Host field, whether the
inbound connection carried TLS (`r.TLS != nil`), the remote address of
the inbound connection (`r.RemoteAddr`), the header map and the body
bytes. -/
structure Request where
  url : URL
  host : String
  tls : Bool
  remoteAddr : String
  header : Header
  body : List Nat
deriving DecidableEq

/-- Model of `*http.Response`: status, headers and body bytes. -/
structure Response where
  status : Nat
  header : Header
  body : List Nat
deriving DecidableEq

/-- One write made to the inbound `http.ResponseWriter`: either the
backend response streamed back, or an `http.Error(w, msg, status)`. -/
inductive HttpWrite
  | response (resp : Response)
  | httpError (status : Nat) (msg : String)
deriving DecidableEq

/-- Model of `*http.Client` as the forwarding code uses it: only its
`Transport` (a round-tripper, here an oracle from outbound request to
response or transport error) is ever read. -/
structure HttpClient where
  transport : Request → Except String Response

/-- hopHeaders from http.go: the headers `fwdHttp`'s director deletes
before transmission (the source lists these eight; see http.go). -/
def hopHeaders : List String :=
  ["Connection", "Keep-Alive", "Proxy-Authenticate", "Proxy-Authorization",
   "Te", "Trailers", "Transfer-Encoding", "Upgrade"]

/-- Model of `http.Header.Del`: removes every value stored under a key. -/
def headerDel (h : Header) (k : String) : Header :=
  h.filter fun kv => kv.1 != k

/-- The director's header-stripping loop:
`for _, h := range hopHeaders { req.Header.Del(h) }`. -/
def stripHopHeaders (h : Header) : Header :=
  hopHeaders.foldl headerDel h

/-- Values stored under a key, in order (`http.Header` map access). -/
def headerValues (h : Header) (k : String) : List String :=
  (h.filter fun kv => kv.1 == k).map fun kv => kv.2

/-- Model of `http.Header.Set`: all values under the key are replaced
by the single given value (the map has no order; this model appends the
new entry at the end). -/
def headerSet (h : Header) (k v : String) : Header :=
  headerDel h k ++ [(k, v)]

/-- Splits a character list at every ','. -/
def splitComma : List Char → List (List Char)
  | [] => [[]]
  | ',' :: rest => [] :: splitComma rest
  | c :: rest =>
      match splitComma rest with
      | [] => [[c]]
      | p :: ps => (c :: p) :: ps

/-- Space or horizontal tab, the characters `textproto.TrimString`
removes. -/
def isOWS (c : Char) : Bool := c == ' ' || c == '\t'

/-- Leading and trailing spaces and tabs removed. -/
def trimOWS (cs : List Char) : List Char :=
  ((cs.dropWhile isOWS).reverse.dropWhile isOWS).reverse

/-- A header value split into its nonempty comma-separated tokens,
each trimmed — how the standard reverse proxy reads list-valued
headers such as `Connection`.  Tokens are modelled in the canonical
header-key form in which Go's `http.Header` operations would use
them. -/
def commaTokens (v : String) : List String :=
  ((splitComma v.toList).map fun t => String.mk (trimOWS t)).filter fun s => s != ""

/-- The header names listed in the `Connection` header's values
(RFC 7230 section 6.1), which the standard reverse proxy deletes. -/
def connectionTokens (h : Header) : List String :=
  (headerValues h "Connection").flatMap commaTokens

/-- The `net/http/httputil` package's own hop-by-hop header list (note
`Proxy-Connection`, and `Trailer` rather than `Trailers`). -/
def stdlibHopHeaders : List String :=
  ["Connection", "Proxy-Connection", "Keep-Alive", "Proxy-Authenticate",
   "Proxy-Authorization", "Te", "Trailer", "Transfer-Encoding", "Upgrade"]

/-- Model of httputil's `removeHopByHopHeaders`, which
`ReverseProxy.ServeHTTP` applies to the outbound header after the
Director and before the round trip: first delete every header named in
the `Connection` values, then delete the fixed stdlib list. -/
def removeHopByHopHeaders (h : Header) : Header :=
  stdlibHopHeaders.foldl headerDel ((connectionTokens h).foldl headerDel h)

/-- ASCII lowercase of one character (token comparison in HTTP is over
ASCII token characters). -/
def lowerChar (c : Char) : Char :=
  if 65 ≤ c.toNat && c.toNat ≤ 90 then Char.ofNat (c.toNat + 32) else c

/-- ASCII lowercase of a string. -/
def lowerStr (s : String) : String :=
  String.mk (s.toList.map lowerChar)

/-- Model of `httpguts.HeaderValuesContainsToken`: some value contains
the token, compared case-insensitively. -/
def valuesContainToken (vals : List String) (token : String) : Bool :=
  vals.any fun v => (commaTokens v).any fun t => lowerStr t == token

/-- Model of httputil's `upgradeType`: the `Upgrade` header value when
the `Connection` header carries the token "Upgrade", else empty. -/
def upgradeType (h : Header) : String :=
  if valuesContainToken (headerValues h "Connection") "upgrade" then
    match headerValues h "Upgrade" with
    | [] => ""
    | v :: _ => v
  else ""

/-- Model of `net.SplitHostPort` on the host:port shapes a TCP
listener reports as `RemoteAddr`: split at the last colon, error
(`none`) when there is no colon.  IPv6 bracket stripping and
multi-colon validation are not modelled; the inputs used here are
IPv4:port. -/
def splitHostPort (s : String) : Option (String × String) :=
  if s.toList.contains ':' then
    let rev := s.toList.reverse
    let portRev := rev.takeWhile fun c => c != ':'
    some (String.mk ((rev.drop (portRev.length + 1)).reverse), String.mk portRev.reverse)
  else none

/-- ReverseProxy's Te add-back: after stripping, `Te: trailers` is
restored when the ORIGINAL inbound request's `Te` values contained the
token "trailers". -/
def addTeTrailers (inboundTe : List String) (h : Header) : Header :=
  if valuesContainToken inboundTe "trailers" then headerSet h "Te" "trailers" else h

/-- ReverseProxy's protocol-upgrade add-back: when the request carried
an upgrade type, `Connection: Upgrade` and the `Upgrade` header are
restored after stripping. -/
def addUpgrade (reqUpType : String) (h : Header) : Header :=
  if reqUpType != "" then
    headerSet (headerSet h "Connection" "Upgrade") "Upgrade" reqUpType
  else h

/-- ReverseProxy's X-Forwarded-For rewrite (active because `fwdHttp`
uses a Director, not a Rewrite): when the remote address splits as
host:port, the client IP — appended to any prior values — is set as
the single `X-Forwarded-For` value.  (The Go omit case of a non-nil
map entry holding a nil slice is not representable in this header
model.) -/
def addXForwardedFor (remoteAddr : String) (h : Header) : Header :=
  match splitHostPort remoteAddr with
  | none => h
  | some hp =>
      let prior := headerValues h "X-Forwarded-For"
      let clientIP :=
        if prior.isEmpty then hp.1
        else String.intercalate ", " prior ++ ", " ++ hp.1
      headerSet h "X-Forwarded-For" clientIP

/-- ReverseProxy's User-Agent default: when no `User-Agent` key is
present on the outbound header, it is set to the empty string so the
Go client's default is not sent. -/
def addDefaultUserAgent (h : Header) : Header :=
  if (headerValues h "User-Agent").isEmpty then headerSet h "User-Agent" "" else h

/-- The header rewrites `httputil.ReverseProxy.ServeHTTP` (Go 1.23)
performs on the outbound header between the Director and
`Transport.RoundTrip`, in source order: compute the upgrade type,
`removeHopByHopHeaders`, the Te add-back (driven by the ORIGINAL
inbound `Te` values), the upgrade add-back, `X-Forwarded-For`, and the
User-Agent default. -/
def prepareOutboundHeader (inboundTe : List String) (remoteAddr : String)
    (h : Header) : Header :=
  addDefaultUserAgent (addXForwardedFor remoteAddr
    (addUpgrade (upgradeType h) (addTeTrailers inboundTe (removeHopByHopHeaders h))))

/-- The mutex-guarded mutable state of `fwdHttp` (http.go): the shared
`proxyError` and `parsedError` variables, threaded explicitly. -/
structure ProxyState where
  proxyError : Option String
  parsedError : Bool
deriving DecidableEq

/-- Director callback of the `httputil.ReverseProxy` built by `fwdHttp`
(http.go): parse `targetAddr + req.URL.RequestURI()`; on failure record
"invalid target URL: ..." and return with the request unmodified; on
success install the parsed URL, set `req.Host = req.URL.Host`, and
delete the hop-by-hop headers. -/
def director (targetAddr : String) (req : Request) (st : ProxyState) :
    Request × ProxyState :=
  match parseURL (targetAddr ++ requestURI req.url) with
  | Except.error e =>
      (req, { proxyError := some ("invalid target URL: " ++ e), parsedError := true })
  | Except.ok targetURL =>
      let req := { req with url := targetURL }
      let req := { req with host := req.url.host }
      let req := { req with header := stripHopHeaders req.header }
      (req, st)

/-- Outbound request built from the inbound request by
`ReverseProxy.ServeHTTP`: the Director runs first (URL rewrite, Host
set, the repo's hop-header strip — or nothing but an error record when
the target URL fails to parse), then the stdlib applies
`prepareOutboundHeader` to the resulting header before the round
trip. -/
def prepareForTransport (targetAddr : String) (req : Request) (st : ProxyState) :
    Request × ProxyState :=
  let d := director targetAddr req st
  ({ d.1 with
      header := prepareOutboundHeader (headerValues req.header "Te")
        req.remoteAddr d.1.header },
   d.2)

/-- One round of `httputil.ReverseProxy.ServeHTTP` as configured by
`fwdHttp`: run the director on the request, apply the stdlib's own
outbound-header rewrites, hand the result to the transport; on
transport error the `ErrorHandler` writes a 502 via
`http.Error(w, "Error proxying request: "+err.Error(), 502)` and
overwrites `proxyError`; on success the response is streamed back. -/
def reverseProxyServe (transport : Request → Except String Response)
    (targetAddr : String) (req : Request) (st : ProxyState) :
    List HttpWrite × ProxyState :=
  let d := prepareForTransport targetAddr req st
  match transport d.1 with
  | Except.ok resp => ([HttpWrite.response resp], d.2)
  | Except.error e =>
      ([HttpWrite.httpError 502 ("Error proxying request: " ++ e)],
       { d.2 with proxyError := some e })

/-- fwdHttp from http.go: initialises `proxyError = nil`,
`parsedError = false`; checks `parsedError` (a check performed before
`proxy.ServeHTTP` runs, hence against the initial state); then serves
the request through the reverse proxy and returns the final
`proxyError`.  The first component is the sequence of writes made to
the inbound response writer, the second the returned error. -/
def fwdHttp (outboundClient : HttpClient) (targetAddr : String) (r : Request) :
    List HttpWrite × Option String :=
  let st : ProxyState := { proxyError := none, parsedError := false }
  if st.parsedError then
    ([], st.proxyError)
  else
    let served := reverseProxyServe outboundClient.transport targetAddr r st
    (served.1, served.2.proxyError)

/-- Outbound request produced by `fwdHttp`'s director from the inbound
request, starting from the initial proxy state. -/
def outboundRequest (targetAddr : String) (r : Request) : Request :=
  (director targetAddr r { proxyError := none, parsedError := false }).1

/-- The request `fwdHttp` actually hands to the transport: the
director's output with the stdlib's outbound-header rewrites applied,
starting from the initial proxy state. -/
def transmittedRequest (targetAddr : String) (r : Request) : Request :=
  (prepareForTransport targetAddr r { proxyError := none, parsedError := false }).1

/-- TailnetProxy from tailnet_proxy.go: the wrapped HTTP client and the
stored `insecureSkipVerify` flag. -/
structure TailnetProxy where
  httpClient : HttpClient
  insecureSkipVerify : Bool

/-- NewTailnetProxy from tailnet_proxy.go. -/
def NewTailnetProxy (httpClient : HttpClient) (insecureSkipVerify : Bool) :
    TailnetProxy :=
  { httpClient := httpClient, insecureSkipVerify := insecureSkipVerify }

/-- ServeHTTP of TailnetProxy (tailnet_proxy.go): derive the scheme from
`r.TLS != nil`, build `targetURL = scheme + r.Host`; with an empty Host
reply `400 "No Host header provided"` and return; otherwise delegate to
`fwdHttp` with the derived target (any `fwdHttp` error is only logged,
returned here as the second component). -/
def TailnetProxy.ServeHTTP (p : TailnetProxy) (r : Request) :
    List HttpWrite × Option String :=
  let targetHost := r.host
  let scheme := if r.tls then "https://" else "http://"
  let targetURL := scheme ++ targetHost
  if targetHost = "" then
    ([HttpWrite.httpError 400 "No Host header provided"], none)
  else
    fwdHttp p.httpClient targetURL r

/-- Oracle for one run of `fwdTCP` (tcp.go): the outcome of
`ts.Dial(ctx, "tcp", targetAddr)` and of the two `io.Copy` calls
(bytes copied on clean EOF, or the I/O error). -/
structure TCPEnv where
  dial : Except String Unit
  copyToTarget : Except String Nat
  copyFromTarget : Except String Nat

/-- Observable connection-lifecycle events of one `fwdTCP` run.  A
`dial` event records the deadline (in milliseconds) carried by the
context the dial runs under, `none` when the context has no deadline.
`closeWriteLocal` / `closeWriteTarget` are half-close
(`CloseWrite`-style) events; `closeLocal` / `closeTarget` are the full
`Close` calls. -/
inductive TCPEvent
  | dial (timeoutMillis : Option Nat) (targetAddr : String)
  | copyLocalToTarget
  | copyTargetToLocal
  | closeWriteLocal
  | closeWriteTarget
  | closeLocal
  | closeTarget
deriving DecidableEq, Repr

/-- Result of the local-to-target copy task of `fwdTCP` (tcp.go): a
wrapped error on copy failure, nil on clean EOF. -/
def copyToTargetTask (env : TCPEnv) : Option String :=
  match env.copyToTarget with
  | Except.ok _ => none
  | Except.error e => some ("failed to copy data to tailscale node: " ++ e)

/-- Result of the target-to-local copy task of `fwdTCP` (tcp.go). -/
def copyFromTargetTask (env : TCPEnv) : Option String :=
  match env.copyFromTarget with
  | Except.ok _ => none
  | Except.error e => some ("failed to copy data from tailscale node: " ++ e)

/-- fwdTCP from tcp.go, as the pair (event trace, returned error).
The code defers `lstConn.Close()` at entry; builds
`ctx, cancel := context.WithCancel(context.Background())` — a
cancellable context with no deadline, so the dial event carries
deadline `none`; on dial error returns the wrapped dial error (the
deferred close of the local connection still runs); otherwise runs the
two copy tasks in an errgroup, defers `tsConn.Close()`, and returns
`g.Wait()`'s first non-nil task error wrapped as "connection error: ",
or nil.  This sequential model fixes the local-to-target task as the
first error consulted; which task's error `g.Wait` returns first is
immaterial to the theorems below.  Deferred closes run last-in
first-out: `tsConn.Close` then `lstConn.Close`. -/
def fwdTCP (env : TCPEnv) (targetAddr : String) :
    List TCPEvent × Option String :=
  match env.dial with
  | Except.error e =>
      ([TCPEvent.dial none targetAddr, TCPEvent.closeLocal],
       some ("failed to dial tailscale node: " ++ e))
  | Except.ok _ =>
      let gErr : Option String :=
        match copyToTargetTask env with
        | some e => some e
        | none => copyFromTargetTask env
      let ret : Option String :=
        match gErr with
        | some e => some ("connection error: " ++ e)
        | none => none
      ([TCPEvent.dial none targetAddr,
        TCPEvent.copyLocalToTarget, TCPEvent.copyTargetToLocal,
        TCPEvent.closeTarget, TCPEvent.closeLocal], ret)

/-- Checks that every dial event in a trace carries a bounded deadline
(the property the specification asserts of the outbound dial). -/
def everyDialBounded : List TCPEvent → Bool
  | [] => true
  | TCPEvent.dial none _ :: _ => false
  | _ :: rest => everyDialBounded rest

/-- Number of dial events in a trace (for the no-retry property). -/
def countDials : List TCPEvent → Nat
  | [] => 0
  | TCPEvent.dial _ _ :: rest => countDials rest + 1
  | _ :: rest => countDials rest

/-- One `listener.Accept()` outcome seen by the TCP-mode accept loop in
main.go: an accepted connection, or an error together with whether that
error stems from the listener itself having been closed. -/
inductive AcceptOutcome
  | conn (id : Nat)
  | acceptErr (msg : String) (listenerClosed : Bool)
deriving DecidableEq

/-- What one iteration of the accept loop does next. -/
inductive LoopAction
  | logAndContinue
  | spawnForwarderAndContinue (id : Nat)
  | stop
deriving DecidableEq, Repr

/-- Body of the TCP-mode accept loop in main.go:
`conn, err := listener.Accept(); if err != nil { log; continue };
go fwdTCP(...)`.  The error branch is unconditional — the code never
inspects the error, so the `listenerClosed` flag of the outcome is
ignored. -/
def acceptLoopStep : AcceptOutcome → LoopAction
  | AcceptOutcome.conn c => LoopAction.spawnForwarderAndContinue c
  | AcceptOutcome.acceptErr _ _ => LoopAction.logAndContinue

/-- The accept loop run over a finite prefix of accept outcomes: each
outcome is handled by `acceptLoopStep`, and the loop keeps accepting
unless an iteration decides to stop. -/
def runAcceptLoop : List AcceptOutcome → List LoopAction
  | [] => []
  | o :: rest =>
      let a := acceptLoopStep o
      a :: (if a = LoopAction.stop then [] else runAcceptLoop rest)

deriving instance DecidableEq for Except

/-- Deleting keys one after another filters the header list by the
conjunction: a pair survives the fold exactly when its key is in none
of the deleted keys, and surviving pairs keep order and values. -/
theorem foldl_headerDel_eq_filter (ks : List String) (h : Header) :
    ks.foldl headerDel h = h.filter fun kv => !(ks.contains kv.1) := by
  induction ks generalizing h with
  | nil => simp [List.filter]
  | cons k ks ih =>
      simp only [List.foldl_cons, headerDel, ih, List.filter_filter]
      congr 1
      funext kv
      by_cases hk : kv.1 = k
      · simp [hk]
      · simp [hk]

/-- Example inbound request of the fixed-target rewrite example: request
path `/api/x`, query `y=1`. -/
def exampleRequest : Request :=
  { url := { scheme := "", host := "", path := "/api/x", query := "y=1" },
    host := "original.example", tls := false, remoteAddr := "203.0.113.5:44444",
    header := [("Accept", "text/html")], body := [] }

/-- Outbound URL the rewrite example should produce. -/
def exampleTargetURL : URL :=
  { scheme := "http", host := "10.0.0.1:8080", path := "/api/x", query := "y=1" }

/-- C1: for every inbound request forwarded to a fixed target whose
rewritten URL parses, `fwdHttp`'s director builds the outbound request
URL by parsing the concatenation of the target base address with the
inbound request's path and query string, and sets the outbound Host to
that URL's host. -/
theorem fwdHttp_constructs_outbound_url (targetAddr : String) (r : Request) (u : URL)
    (h : parseURL (targetAddr ++ requestURI r.url) = Except.ok u) :
    (outboundRequest targetAddr r).url = u ∧
    (outboundRequest targetAddr r).host = u.host := by
  simp [outboundRequest, director, h]

/-- C1 witness: path `/api/x?y=1` against base `http://10.0.0.1:8080`
yields outbound URL `http://10.0.0.1:8080/api/x?y=1` with outbound host
`10.0.0.1:8080`. -/
theorem fwdHttp_constructs_outbound_url_witness :
    parseURL ("http://10.0.0.1:8080" ++ requestURI exampleRequest.url)
      = Except.ok exampleTargetURL
    ∧ (outboundRequest "http://10.0.0.1:8080" exampleRequest).url = exampleTargetURL
    ∧ (outboundRequest "http://10.0.0.1:8080" exampleRequest).host = "10.0.0.1:8080"
    ∧ urlToString exampleTargetURL = "http://10.0.0.1:8080/api/x?y=1" := by
  have hp : parseURL ("http://10.0.0.1:8080" ++ requestURI exampleRequest.url)
      = Except.ok exampleTargetURL := by decide
  have hc := fwdHttp_constructs_outbound_url "http://10.0.0.1:8080" exampleRequest
    exampleTargetURL hp
  exact ⟨hp, hc.1, hc.2, by decide⟩

/-- Target base address containing an ASCII control byte, so the
rewritten URL fails to parse. -/
def ctlTargetAddr : String := "http://10.0.0.1:8080\x01"

/-- Transport oracle modelling Go's `http.Transport`, which rejects a
request whose URL carries no scheme — precisely the shape of the
inbound server request that the director leaves unmodified when its
parse fails. -/
def schemelessFailClient : HttpClient :=
  { transport := fun req =>
      if req.url.scheme = "" then Except.error "unsupported protocol scheme"
      else Except.ok { status := 200, header := [], body := [] } }

/-- C3: at a request whose rewritten target URL fails to parse, the
director records the parse error and returns, but the `parsedError`
early-return check of `fwdHttp` ran before `proxy.ServeHTTP` (where the
director executes), so the proxy still hands the un-rewritten request
to the transport; the transport failure then overwrites `proxyError`
and writes the 502, and `fwdHttp` returns the transport error instead
of the parse error.  This contradicts both the claim and the code's own
comment ("If we had parsing errors, return immediately without
serving"). -/
theorem fwdHttp_parse_error_overwritten :
    parseURL (ctlTargetAddr ++ requestURI exampleRequest.url)
      = Except.error "net/url: invalid control character in URL"
    ∧ fwdHttp schemelessFailClient ctlTargetAddr exampleRequest
      = ([HttpWrite.httpError 502 "Error proxying request: unsupported protocol scheme"],
         some "unsupported protocol scheme")
    ∧ (fwdHttp schemelessFailClient ctlTargetAddr exampleRequest).2
      ≠ some ("invalid target URL: " ++ "net/url: invalid control character in URL") := by
  exact ⟨by decide, by decide, by decide⟩

/-- C7: for every inbound request with a non-empty Host header, the
tailnet proxy delegates the request to `fwdHttp` with target base
address scheme ++ Host, the scheme being https:// exactly when the
inbound connection carried TLS. -/
theorem tailnetProxy_derives_target_from_host (p : TailnetProxy) (r : Request)
    (h : r.host ≠ "") :
    TailnetProxy.ServeHTTP p r
      = fwdHttp p.httpClient ((if r.tls then "https://" else "http://") ++ r.host) r := by
  simp [TailnetProxy.ServeHTTP, h]

/-- Transport oracle that answers every request with an empty 200. -/
def okClient : HttpClient :=
  { transport := fun _ => Except.ok { status := 200, header := [], body := [] } }

/-- Inbound request with Host machine1.ts.net over a plain connection. -/
def machineRequest : Request :=
  { url := { scheme := "", host := "", path := "/", query := "" },
    host := "machine1.ts.net", tls := false, remoteAddr := "203.0.113.5:44444",
    header := [], body := [] }

/-- C7 witness: Host `machine1.ts.net` without TLS derives target
`http://machine1.ts.net`; the same Host over TLS derives
`https://machine1.ts.net`. -/
theorem tailnetProxy_derives_target_from_host_witness :
    TailnetProxy.ServeHTTP (NewTailnetProxy okClient false) machineRequest
      = fwdHttp okClient "http://machine1.ts.net" machineRequest
    ∧ TailnetProxy.ServeHTTP (NewTailnetProxy okClient false)
        { machineRequest with tls := true }
      = fwdHttp okClient "https://machine1.ts.net" { machineRequest with tls := true } := by
  have h1 := tailnetProxy_derives_target_from_host (NewTailnetProxy okClient false)
    machineRequest (by decide)
  have h2 := tailnetProxy_derives_target_from_host (NewTailnetProxy okClient false)
    { machineRequest with tls := true } (by decide)
  exact ⟨h1, h2⟩

/-- C8: for every inbound request whose Host header is empty, the
tailnet proxy responds 400 Bad Request with no forwarding error, and
its output is independent of the wrapped HTTP client — no outbound
round trip and no delegation to `fwdHttp` can have taken place. -/
theorem tailnetProxy_rejects_empty_host (p q : TailnetProxy) (r : Request)
    (h : r.host = "") :
    TailnetProxy.ServeHTTP p r
      = ([HttpWrite.httpError 400 "No Host header provided"], none)
    ∧ TailnetProxy.ServeHTTP p r = TailnetProxy.ServeHTTP q r := by
  constructor <;> simp [TailnetProxy.ServeHTTP, h]

/-- Inbound request with an empty Host header. -/
def emptyHostRequest : Request :=
  { url := { scheme := "", host := "", path := "/", query := "" },
    host := "", tls := false, remoteAddr := "203.0.113.5:44444",
    header := [], body := [] }

/-- C8 witness: a concrete hostless request yields the 400 write for
two proxies with unrelated clients and verification flags. -/
theorem tailnetProxy_rejects_empty_host_witness :
    TailnetProxy.ServeHTTP (NewTailnetProxy okClient false) emptyHostRequest
      = ([HttpWrite.httpError 400 "No Host header provided"], none)
    ∧ TailnetProxy.ServeHTTP (NewTailnetProxy okClient false) emptyHostRequest
      = TailnetProxy.ServeHTTP (NewTailnetProxy schemelessFailClient true) emptyHostRequest := by
  exact tailnetProxy_rejects_empty_host (NewTailnetProxy okClient false)
    (NewTailnetProxy schemelessFailClient true) emptyHostRequest rfl

/-- C10: the behaviour of the tailnet proxy is independent of the
stored `insecureSkipVerify` field — two proxies sharing the same HTTP
client but differing in the flag produce identical output on every
request; `NewTailnetProxy` stores the flag, and no operation reads it
afterwards. -/
theorem tailnetProxy_independent_of_insecureSkipVerify (c : HttpClient)
    (b1 b2 : Bool) (r : Request) :
    TailnetProxy.ServeHTTP (NewTailnetProxy c b1) r
      = TailnetProxy.ServeHTTP (NewTailnetProxy c b2) r
    ∧ (NewTailnetProxy c b1).insecureSkipVerify = b1 := by
  exact ⟨rfl, rfl⟩

/-- Environment in which the dial and both copies succeed. -/
def envAllOk : TCPEnv :=
  { dial := Except.ok (), copyToTarget := Except.ok 42, copyFromTarget := Except.ok 7 }

/-- Environment in which the outbound dial fails. -/
def envDialFail : TCPEnv :=
  { dial := Except.error "connection refused",
    copyToTarget := Except.ok 0, copyFromTarget := Except.ok 0 }

/-- C5: on every run of `fwdTCP` the local connection is closed, and
whenever the outbound dial succeeded (so an outbound connection exists)
the outbound connection is closed as well. -/
theorem fwdTCP_closes_both_connections (env : TCPEnv) (targetAddr : String) :
    TCPEvent.closeLocal ∈ (fwdTCP env targetAddr).1
    ∧ (∀ u, env.dial = Except.ok u →
        TCPEvent.closeTarget ∈ (fwdTCP env targetAddr).1) := by
  cases hd : env.dial with
  | error e => simp [fwdTCP, hd]
  | ok u => simp [fwdTCP, hd]

/-- C5 witness: both closes occur on a concrete successful run, and the
local close occurs on a concrete failed dial. -/
theorem fwdTCP_closes_both_connections_witness :
    TCPEvent.closeLocal ∈ (fwdTCP envAllOk "10.0.0.1:3306").1
    ∧ TCPEvent.closeTarget ∈ (fwdTCP envAllOk "10.0.0.1:3306").1
    ∧ TCPEvent.closeLocal ∈ (fwdTCP envDialFail "10.0.0.1:3306").1 := by
  have h1 := fwdTCP_closes_both_connections envAllOk "10.0.0.1:3306"
  have h2 := fwdTCP_closes_both_connections envDialFail "10.0.0.1:3306"
  exact ⟨h1.1, h1.2 () rfl, h2.1⟩

/-- C4 counterexample: in a run where both copy tasks complete cleanly
(the forward returns nil), no half-close of either destination stream
is ever attempted, contradicting the claim that each copy task attempts
one on completion. -/
theorem fwdTCP_no_half_close_counterexample :
    (fwdTCP envAllOk "10.0.0.1:3306").2 = none
    ∧ TCPEvent.closeWriteTarget ∉ (fwdTCP envAllOk "10.0.0.1:3306").1
    ∧ TCPEvent.closeWriteLocal ∉ (fwdTCP envAllOk "10.0.0.1:3306").1 := by
  decide

/-- C4 amended: the copy tasks of `fwdTCP` never attempt a half-close
of their destination streams; on completion each task simply returns
(nil after a clean copy, a wrapped error after a copy failure), and the
streams are only fully closed when `fwdTCP` returns — after a
successful dial the trace is exactly dial, the two copies, then the two
full closes. -/
theorem fwdTCP_copy_tasks_no_half_close (env : TCPEnv) (targetAddr : String) :
    TCPEvent.closeWriteTarget ∉ (fwdTCP env targetAddr).1
    ∧ TCPEvent.closeWriteLocal ∉ (fwdTCP env targetAddr).1
    ∧ (∀ u, env.dial = Except.ok u →
        (fwdTCP env targetAddr).1
          = [TCPEvent.dial none targetAddr, TCPEvent.copyLocalToTarget,
             TCPEvent.copyTargetToLocal, TCPEvent.closeTarget, TCPEvent.closeLocal])
    ∧ (∀ u n m, env.dial = Except.ok u → env.copyToTarget = Except.ok n →
        env.copyFromTarget = Except.ok m → (fwdTCP env targetAddr).2 = none) := by
  cases hd : env.dial with
  | error e => simp [fwdTCP, hd]
  | ok u =>
      refine ⟨by simp [fwdTCP, hd], by simp [fwdTCP, hd], by simp [fwdTCP, hd], ?_⟩
      intro u' n m _ hn hm
      simp [fwdTCP, hd, copyToTargetTask, copyFromTargetTask, hn, hm]

/-- C4 amended witness: the concrete all-success run has the exact
five-event trace, no half-close events, and a nil result. -/
theorem fwdTCP_copy_tasks_no_half_close_witness :
    TCPEvent.closeWriteTarget ∉ (fwdTCP envAllOk "10.0.0.1:3306").1
    ∧ (fwdTCP envAllOk "10.0.0.1:3306").1
      = [TCPEvent.dial none "10.0.0.1:3306", TCPEvent.copyLocalToTarget,
         TCPEvent.copyTargetToLocal, TCPEvent.closeTarget, TCPEvent.closeLocal]
    ∧ (fwdTCP envAllOk "10.0.0.1:3306").2 = none := by
  have hc := fwdTCP_copy_tasks_no_half_close envAllOk "10.0.0.1:3306"
  exact ⟨hc.1, hc.2.2.1 () rfl, hc.2.2.2 () 42 7 rfl rfl rfl⟩

/-- C6 counterexample: on a concrete failed dial the dial event carries
no deadline — the context built by `fwdTCP` is cancellable but has no
bounded timeout — refuting the bounded-dial-timeout part of the claim
(the wrapped error and the close of the local connection do occur). -/
theorem fwdTCP_unbounded_dial_counterexample :
    fwdTCP envDialFail "10.0.0.1:3306"
      = ([TCPEvent.dial none "10.0.0.1:3306", TCPEvent.closeLocal],
         some "failed to dial tailscale node: connection refused")
    ∧ everyDialBounded (fwdTCP envDialFail "10.0.0.1:3306").1 = false := by
  decide

/-- C6 amended: `fwdTCP` performs exactly one dial attempt per run (no
retry), that dial runs under a cancellable context with no bounded
deadline, and on every dial failure the local connection is closed and
the wrapped dial error is returned. -/
theorem fwdTCP_single_unbounded_dial_no_retry (env : TCPEnv) (targetAddr : String) :
    countDials (fwdTCP env targetAddr).1 = 1
    ∧ everyDialBounded (fwdTCP env targetAddr).1 = false
    ∧ (∀ e, env.dial = Except.error e →
        fwdTCP env targetAddr
          = ([TCPEvent.dial none targetAddr, TCPEvent.closeLocal],
             some ("failed to dial tailscale node: " ++ e))) := by
  cases hd : env.dial with
  | error e => simp [fwdTCP, hd, countDials, everyDialBounded]
  | ok u => simp [fwdTCP, hd, countDials, everyDialBounded]

/-- C6 amended witness: the concrete failed dial produces one unbounded
dial event, the local close, and the wrapped error. -/
theorem fwdTCP_single_unbounded_dial_no_retry_witness :
    countDials (fwdTCP envDialFail "10.0.0.1:3306").1 = 1
    ∧ everyDialBounded (fwdTCP envDialFail "10.0.0.1:3306").1 = false
    ∧ fwdTCP envDialFail "10.0.0.1:3306"
      = ([TCPEvent.dial none "10.0.0.1:3306", TCPEvent.closeLocal],
         some "failed to dial tailscale node: connection refused") := by
  have hc := fwdTCP_single_unbounded_dial_no_retry envDialFail "10.0.0.1:3306"
  exact ⟨hc.1, hc.2.1, hc.2.2 "connection refused" rfl⟩

/-- C9 counterexample: on an accept error stemming from the listener
itself being closed, the loop body still decides to log and continue —
it does not terminate — contradicting the claim's listener-closed
exception. -/
theorem acceptLoop_closed_listener_counterexample :
    acceptLoopStep (AcceptOutcome.acceptErr "use of closed network connection" true)
      = LoopAction.logAndContinue
    ∧ acceptLoopStep (AcceptOutcome.acceptErr "use of closed network connection" true)
      ≠ LoopAction.stop := by
  decide

/-- C9 amended: for every accept error — the listener-closed case
included — the loop logs and continues; the loop never stops early, so
it handles every accept outcome presented to it. -/
theorem acceptLoop_always_continues (msg : String) (closed : Bool)
    (outcomes : List AcceptOutcome) :
    acceptLoopStep (AcceptOutcome.acceptErr msg closed) = LoopAction.logAndContinue
    ∧ (runAcceptLoop outcomes).length = outcomes.length := by
  refine ⟨rfl, ?_⟩
  induction outcomes with
  | nil => rfl
  | cons o rest ih => cases o <;> simp [runAcceptLoop, acceptLoopStep, ih]

/-- Values of a key distribute over header concatenation. -/
theorem headerValues_append (h1 h2 : Header) (k : String) :
    headerValues (h1 ++ h2) k = headerValues h1 k ++ headerValues h2 k := by
  simp [headerValues]

/-- Values of a key on a cons cell. -/
theorem headerValues_cons (kv : String × String) (t : Header) (k : String) :
    headerValues (kv :: t) k
      = if kv.1 = k then kv.2 :: headerValues t k else headerValues t k := by
  by_cases h : kv.1 = k <;> simp [headerValues, List.filter_cons, h]

/-- Deleting a key empties its values and leaves every other key's
values untouched. -/
theorem headerValues_headerDel (h : Header) (k k' : String) :
    headerValues (headerDel h k) k' = if k' = k then [] else headerValues h k' := by
  induction h with
  | nil => simp [headerValues, headerDel]
  | cons kv t ih =>
      by_cases h1 : kv.1 = k
      · have e1 : headerDel (kv :: t) k = headerDel t k := by
          simp [headerDel, List.filter_cons, h1]
        rw [e1, ih, headerValues_cons]
        by_cases h2 : k' = k
        · simp [h2]
        · have h3 : ¬ kv.1 = k' := by
            rw [h1]
            exact fun hh => h2 hh.symm
          simp [h2, h3]
      · have e1 : headerDel (kv :: t) k = kv :: headerDel t k := by
          simp [headerDel, List.filter_cons, h1]
        rw [e1, headerValues_cons, headerValues_cons, ih]
        by_cases h3 : kv.1 = k'
        · have h2 : ¬ k' = k := fun hh => h1 (by rw [h3, hh])
          simp [h3, h2]
        · by_cases h2 : k' = k <;> simp [h3, h2, h1]

/-- Folding deletions over a key list filters exactly those keys. -/
theorem headerValues_foldl_headerDel (ks : List String) (h : Header) (k : String) :
    headerValues (ks.foldl headerDel h) k = if k ∈ ks then [] else headerValues h k := by
  induction ks generalizing h with
  | nil => simp
  | cons a as ih =>
      simp only [List.foldl_cons]
      rw [ih]
      by_cases hk : k = a
      · subst hk
        by_cases hm : k ∈ as <;> simp [hm, headerValues_headerDel]
      · by_cases hm : k ∈ as <;> simp [hm, hk, headerValues_headerDel]

/-- Setting a key leaves its single value and every other key's values
untouched. -/
theorem headerValues_headerSet (h : Header) (k v k' : String) :
    headerValues (headerSet h k v) k' = if k' = k then [v] else headerValues h k' := by
  simp only [headerSet, headerValues_append, headerValues_headerDel]
  by_cases hk : k' = k
  · simp [hk, headerValues]
  · have h2 : ¬ k = k' := fun hh => hk hh.symm
    simp [hk, h2, headerValues]

/-- The director's strip per key. -/
theorem headerValues_stripHopHeaders (h : Header) (k : String) :
    headerValues (stripHopHeaders h) k
      = if k ∈ hopHeaders then [] else headerValues h k :=
  headerValues_foldl_headerDel hopHeaders h k

/-- With no `Connection` values left (the director already deleted
them), the stdlib hop-by-hop removal deletes exactly its fixed list. -/
theorem headerValues_removeHopByHopHeaders (h : Header) (k : String)
    (hc : headerValues h "Connection" = []) :
    headerValues (removeHopByHopHeaders h) k
      = if k ∈ stdlibHopHeaders then [] else headerValues h k := by
  have ht : connectionTokens h = [] := by simp [connectionTokens, hc]
  simp [removeHopByHopHeaders, ht, headerValues_foldl_headerDel]

/-- With no `Connection` values left, no upgrade type is detected. -/
theorem upgradeType_of_noConnection (h : Header)
    (hc : headerValues h "Connection" = []) : upgradeType h = "" := by
  simp [upgradeType, hc, valuesContainToken]

/-- The upgrade add-back does nothing when no upgrade was requested. -/
theorem addUpgrade_empty (h : Header) : addUpgrade "" h = h := by
  simp [addUpgrade]

/-- The Te add-back leaves keys other than `Te` untouched. -/
theorem hv_addTeTrailers_ne (te : List String) (h : Header) (k : String)
    (hne : k ≠ "Te") : headerValues (addTeTrailers te h) k = headerValues h k := by
  unfold addTeTrailers
  by_cases ht : valuesContainToken te "trailers" <;> simp [ht, headerValues_headerSet, hne]

/-- The Te values after the add-back. -/
theorem hv_addTeTrailers_self (te : List String) (h : Header) :
    headerValues (addTeTrailers te h) "Te"
      = if valuesContainToken te "trailers" then ["trailers"]
        else headerValues h "Te" := by
  unfold addTeTrailers
  by_cases ht : valuesContainToken te "trailers" <;> simp [ht, headerValues_headerSet]

/-- The X-Forwarded-For rewrite leaves other keys untouched. -/
theorem hv_addXForwardedFor_ne (remote : String) (h : Header) (k : String)
    (hne : k ≠ "X-Forwarded-For") :
    headerValues (addXForwardedFor remote h) k = headerValues h k := by
  cases hsp : splitHostPort remote <;>
    simp [addXForwardedFor, hsp, headerValues_headerSet, hne]

/-- The X-Forwarded-For values after the rewrite, when the remote
address splits as host:port. -/
theorem hv_addXForwardedFor_some (remote : String) (h : Header)
    (hp : String × String) (hs : splitHostPort remote = some hp) :
    headerValues (addXForwardedFor remote h) "X-Forwarded-For"
      = [if (headerValues h "X-Forwarded-For").isEmpty then hp.1
         else String.intercalate ", " (headerValues h "X-Forwarded-For") ++ ", " ++ hp.1] := by
  simp [addXForwardedFor, hs, headerValues_headerSet]

/-- The User-Agent default leaves other keys untouched. -/
theorem hv_addDefaultUserAgent_ne (h : Header) (k : String)
    (hne : k ≠ "User-Agent") :
    headerValues (addDefaultUserAgent h) k = headerValues h k := by
  unfold addDefaultUserAgent
  by_cases hu : (headerValues h "User-Agent").isEmpty <;>
    simp [hu, headerValues_headerSet, hne]

/-- The User-Agent values after the default is applied. -/
theorem hv_addDefaultUserAgent_self (h : Header) :
    headerValues (addDefaultUserAgent h) "User-Agent"
      = if (headerValues h "User-Agent").isEmpty then [""]
        else headerValues h "User-Agent" := by
  unfold addDefaultUserAgent
  by_cases hu : (headerValues h "User-Agent").isEmpty <;>
    simp [hu, headerValues_headerSet]

/-- What `fwdHttp` does is fully determined by the transport's answer
on the transmitted request: glue between `fwdHttp` and
`transmittedRequest`. -/
theorem fwdHttp_uses_transmittedRequest (c : HttpClient) (targetAddr : String)
    (r : Request) :
    fwdHttp c targetAddr r
      = (match c.transport (transmittedRequest targetAddr r) with
         | Except.ok resp =>
             ([HttpWrite.response resp],
              (director targetAddr r { proxyError := none, parsedError := false }).2.proxyError)
         | Except.error e =>
             ([HttpWrite.httpError 502 ("Error proxying request: " ++ e)], some e)) := by
  cases hc : c.transport (transmittedRequest targetAddr r) with
  | ok resp =>
      simp only [transmittedRequest] at hc
      simp [fwdHttp, reverseProxyServe, hc]
      rfl
  | error e =>
      simp only [transmittedRequest] at hc
      simp [fwdHttp, reverseProxyServe, hc]

/-- Request carrying a `Trailer` header (the singular form, which the
claim's fixed set does not contain) and an ordinary header. -/
def trailerRequest : Request :=
  { url := { scheme := "", host := "", path := "/", query := "" },
    host := "original.example", tls := false, remoteAddr := "10.1.2.3:55555",
    header := [("Trailer", "Expires"), ("X-Custom", "1")], body := [] }

/-- C2 counterexample: the claim says exactly the nine-header set
(which lists `Trailers`, not `Trailer`) is removed and every other
header passes through unmodified; but the request `fwdHttp` hands to
the transport has its `Trailer` header deleted — by the standard
reverse proxy's own hop-by-hop removal, which runs between the
Director and the round trip — so a header outside the claimed set does
not pass through. -/
theorem trailer_header_not_passed_through :
    ("Trailer", "Expires") ∈ trailerRequest.header
    ∧ "Trailer" ∉ ["Connection", "Keep-Alive", "Proxy-Authenticate",
        "Proxy-Authorization", "Te", "Trailers", "Transfer-Encoding", "Upgrade",
        "Proxy-Connection"]
    ∧ headerValues (transmittedRequest "http://10.0.0.1:8080" trailerRequest).header
        "Trailer" = [] := by decide

/-- C2 amended: the request `fwdHttp` transmits has been stripped of
the union of the repo's eight-entry `hopHeaders` and the standard
reverse proxy's own hop-by-hop list (so `Proxy-Connection` is removed
by the standard-library step, not by the repo's list, and `Trailer` is
removed as well); the proxy then restores `Te: trailers` when the
inbound request declared TE trailers, sets `X-Forwarded-For` to the
inbound values extended with the client IP, and sets an empty
User-Agent when none is present; every header outside the removed
union and distinct from those two rewritten names, as well as the
request body, passes through unmodified. -/
theorem fwdHttp_transmitted_header_stripping (targetAddr : String) (r : Request)
    (u : URL) (hparse : parseURL (targetAddr ++ requestURI r.url) = Except.ok u) :
    (∀ k, k ∈ hopHeaders ++ stdlibHopHeaders → k ≠ "Te" →
        headerValues (transmittedRequest targetAddr r).header k = [])
    ∧ headerValues (transmittedRequest targetAddr r).header "Te"
        = (if valuesContainToken (headerValues r.header "Te") "trailers"
           then ["trailers"] else [])
    ∧ (∀ k, k ∉ hopHeaders ++ stdlibHopHeaders → k ≠ "X-Forwarded-For" →
        k ≠ "User-Agent" →
        headerValues (transmittedRequest targetAddr r).header k
          = headerValues r.header k)
    ∧ headerValues (transmittedRequest targetAddr r).header "X-Forwarded-For"
        = (match splitHostPort r.remoteAddr with
           | none => headerValues r.header "X-Forwarded-For"
           | some hp =>
               [if (headerValues r.header "X-Forwarded-For").isEmpty then hp.1
                else String.intercalate ", " (headerValues r.header "X-Forwarded-For")
                  ++ ", " ++ hp.1])
    ∧ headerValues (transmittedRequest targetAddr r).header "User-Agent"
        = (if (headerValues r.header "User-Agent").isEmpty then [""]
           else headerValues r.header "User-Agent")
    ∧ (transmittedRequest targetAddr r).body = r.body := by
  have hT : (transmittedRequest targetAddr r).header
      = prepareOutboundHeader (headerValues r.header "Te") r.remoteAddr
          (stripHopHeaders r.header) := by
    simp [transmittedRequest, prepareForTransport, director, hparse]
  have hc : headerValues (stripHopHeaders r.header) "Connection" = [] := by
    rw [headerValues_stripHopHeaders, if_pos (by decide : "Connection" ∈ hopHeaders)]
  have hprep : prepareOutboundHeader (headerValues r.header "Te") r.remoteAddr
        (stripHopHeaders r.header)
      = addDefaultUserAgent (addXForwardedFor r.remoteAddr
          (addTeTrailers (headerValues r.header "Te")
            (removeHopByHopHeaders (stripHopHeaders r.header)))) := by
    simp only [prepareOutboundHeader, upgradeType_of_noConnection _ hc, addUpgrade_empty]
  have hkey : ∀ k, headerValues (transmittedRequest targetAddr r).header k
      = headerValues (addDefaultUserAgent (addXForwardedFor r.remoteAddr
          (addTeTrailers (headerValues r.header "Te")
            (removeHopByHopHeaders (stripHopHeaders r.header))))) k := by
    intro k
    rw [hT, hprep]
  refine ⟨?_, ?_, ?_, ?_, ?_, ?_⟩
  · intro k hk hkTe
    have hkXFF : k ≠ "X-Forwarded-For" := by
      rintro rfl
      exact absurd hk (by decide)
    have hkUA : k ≠ "User-Agent" := by
      rintro rfl
      exact absurd hk (by decide)
    rw [hkey k, hv_addDefaultUserAgent_ne _ _ hkUA, hv_addXForwardedFor_ne _ _ _ hkXFF,
      hv_addTeTrailers_ne _ _ _ hkTe, headerValues_removeHopByHopHeaders _ _ hc,
      headerValues_stripHopHeaders]
    rcases List.mem_append.1 hk with hm | hm
    · simp [hm]
    · simp [hm]
  · rw [hkey "Te", hv_addDefaultUserAgent_ne _ _ (by decide),
      hv_addXForwardedFor_ne _ _ _ (by decide), hv_addTeTrailers_self,
      headerValues_removeHopByHopHeaders _ _ hc,
      if_pos (by decide : "Te" ∈ stdlibHopHeaders)]
  · intro k hk hkXFF hkUA
    have hkTe : k ≠ "Te" := by
      rintro rfl
      exact hk (by decide)
    have h1 : k ∉ stdlibHopHeaders := fun hh => hk (List.mem_append.2 (Or.inr hh))
    have h2 : k ∉ hopHeaders := fun hh => hk (List.mem_append.2 (Or.inl hh))
    rw [hkey k, hv_addDefaultUserAgent_ne _ _ hkUA, hv_addXForwardedFor_ne _ _ _ hkXFF,
      hv_addTeTrailers_ne _ _ _ hkTe, headerValues_removeHopByHopHeaders _ _ hc,
      headerValues_stripHopHeaders, if_neg h1, if_neg h2]
  · have hinner : headerValues (addTeTrailers (headerValues r.header "Te")
          (removeHopByHopHeaders (stripHopHeaders r.header))) "X-Forwarded-For"
        = headerValues r.header "X-Forwarded-For" := by
      rw [hv_addTeTrailers_ne _ _ _ (by decide),
        headerValues_removeHopByHopHeaders _ _ hc, headerValues_stripHopHeaders,
        if_neg (by decide : ¬ "X-Forwarded-For" ∈ stdlibHopHeaders),
        if_neg (by decide : ¬ "X-Forwarded-For" ∈ hopHeaders)]
    rw [hkey "X-Forwarded-For", hv_addDefaultUserAgent_ne _ _ (by decide)]
    cases hsp : splitHostPort r.remoteAddr with
    | none =>
        simp only [addXForwardedFor, hsp]
        rw [hinner]
    | some hp =>
        rw [hv_addXForwardedFor_some _ _ _ hsp, hinner]
  · have hinner : headerValues (addXForwardedFor r.remoteAddr
          (addTeTrailers (headerValues r.header "Te")
            (removeHopByHopHeaders (stripHopHeaders r.header)))) "User-Agent"
        = headerValues r.header "User-Agent" := by
      rw [hv_addXForwardedFor_ne _ _ _ (by decide), hv_addTeTrailers_ne _ _ _ (by decide),
        headerValues_removeHopByHopHeaders _ _ hc, headerValues_stripHopHeaders,
        if_neg (by decide : ¬ "User-Agent" ∈ stdlibHopHeaders),
        if_neg (by decide : ¬ "User-Agent" ∈ hopHeaders)]
    rw [hkey "User-Agent", hv_addDefaultUserAgent_self, hinner]
  · simp [transmittedRequest, prepareForTransport, director, hparse]

/-- Request mixing hop-by-hop headers, a `Trailer`, a `Te: trailers`,
ordinary headers and existing X-Forwarded-For and User-Agent values. -/
def stripWitnessRequest : Request :=
  { url := { scheme := "", host := "", path := "/api/x", query := "y=1" },
    host := "original.example", tls := false, remoteAddr := "10.1.2.3:55555",
    header := [("Connection", "keep-alive"), ("Proxy-Connection", "keep-alive"),
               ("Trailer", "Expires"), ("Te", "trailers"), ("X-Custom", "1"),
               ("User-Agent", "curl/8.5"), ("X-Forwarded-For", "9.9.9.9")],
    body := [104, 105] }

/-- C2 amended witness: on a concrete request, Connection,
Proxy-Connection and Trailer are all gone from the transmitted header,
Te survives as "trailers", X-Custom and the body pass verbatim, the
client IP is appended to X-Forwarded-For, and the existing User-Agent
is kept. -/
theorem fwdHttp_transmitted_header_stripping_witness :
    headerValues (transmittedRequest "http://10.0.0.1:8080" stripWitnessRequest).header
        "Connection" = []
    ∧ headerValues (transmittedRequest "http://10.0.0.1:8080" stripWitnessRequest).header
        "Proxy-Connection" = []
    ∧ headerValues (transmittedRequest "http://10.0.0.1:8080" stripWitnessRequest).header
        "Trailer" = []
    ∧ headerValues (transmittedRequest "http://10.0.0.1:8080" stripWitnessRequest).header
        "Te" = ["trailers"]
    ∧ headerValues (transmittedRequest "http://10.0.0.1:8080" stripWitnessRequest).header
        "X-Custom" = ["1"]
    ∧ headerValues (transmittedRequest "http://10.0.0.1:8080" stripWitnessRequest).header
        "X-Forwarded-For" = ["9.9.9.9, 10.1.2.3"]
    ∧ headerValues (transmittedRequest "http://10.0.0.1:8080" stripWitnessRequest).header
        "User-Agent" = ["curl/8.5"]
    ∧ (transmittedRequest "http://10.0.0.1:8080" stripWitnessRequest).body
        = stripWitnessRequest.body := by
  have hc := fwdHttp_transmitted_header_stripping "http://10.0.0.1:8080"
    stripWitnessRequest
    { scheme := "http", host := "10.0.0.1:8080", path := "/api/x", query := "y=1" }
    (by decide)
  refine ⟨hc.1 "Connection" (by decide) (by decide),
    hc.1 "Proxy-Connection" (by decide) (by decide),
    hc.1 "Trailer" (by decide) (by decide), ?_,
    hc.2.2.1 "X-Custom" (by decide) (by decide) (by decide), ?_, ?_,
    hc.2.2.2.2.2⟩
  · rw [hc.2.1]
    decide
  · rw [hc.2.2.2.1]
    decide
  · rw [hc.2.2.2.2.1]
    decide
